import Mathlib

/-!
Verification of the ctx-router core (route registry, two-tier route store,
execution lifecycle) against its natural-language specification.

The definitions below are a shallow embedding of the TypeScript sources:
  * `src/src/router/router.ts`      — builder, HTTP-grammar detection, storage
  * `src/src/router/lifecycle.exec.ts` (current variant) — the exec lifecycle
  * `src/src/router/instance.ts`    — per-instance counters
  * `src/src/error.ts` and the router error map — structured errors

Modelling conventions:
  * JS objects used as string-keyed data bags are association lists where a
    later entry wins on key collision (`lookupR` looks from the right), which
    matches the semantics of JS object spread assignment order.
  * `async` functions that may throw are `Except (Err × Ctx) Ctx`: a throw
    carries the error value together with the state of the (by-reference)
    context object at the moment of the throw.
  * `Date.now()` readings and the lazily sampled CPU/memory stats are external
    effects; they enter the model as explicit parameters
    (`inTime`, `outTime`, `cpu`, `mem`).
  * the `path-to-regexp` matcher is an external capability consumed by the
    core; it is modelled as an opaque function `String → Option AList`
    (`false` becomes `none`, a match becomes `some params`).
-/

namespace CtxRt

/-- String-keyed data bag (JS object). Assignment order is list order. -/
abbrev AList := List (String × String)

/-- Lookup in a data bag with JS semantics: the LAST assignment of a key wins
(the list is read from the right). -/
def lookupR : AList → String → Option String
  | [], _ => none
  | (k', v) :: rest, k =>
    match lookupR rest k with
    | some v' => some v'
    | none => if k' = k then some v else none

/-- JS truthiness of an optional string: defined and non-empty. -/
def strTruthy : Option String → Bool
  | none => false
  | some s => !(s == "")

/-- Splitter state machine for JS `s.split(/\s+/)`: maximal whitespace runs
separate tokens; a leading or trailing run contributes an empty token.
`inWs` records that the previous character was part of a whitespace run. -/
def splitWsAux : List Char → List Char → Bool → List String
  | [], acc, inWs => if inWs then [""] else [String.mk acc.reverse]
  | c :: rest, acc, inWs =>
    if c.isWhitespace then
      if inWs then splitWsAux rest acc true
      else String.mk acc.reverse :: splitWsAux rest [] true
    else splitWsAux rest (c :: acc) false

/-- JS `seg.split(/\s+/)` (the tokenizer used by HTTP-grammar detection). -/
def splitWs (s : String) : List String := splitWsAux s.data [] false

/-- The known HTTP verbs of `analyzeSegments` in `router.ts`. -/
def httpMethods : List String :=
  ["GET", "POST", "PUT", "DELETE", "PATCH", "HEAD", "OPTIONS"]

/-- `p.toUpperCase()` (ASCII), written on the character list so that it
reduces definitionally. -/
def upperStr (p : String) : String := String.mk (p.data.map Char.toUpper)

/-- `httpMethods.includes(p.toUpperCase())` — case-insensitive verb test. -/
def isVerb (p : String) : Bool := httpMethods.contains (upperStr p)

/-- `p.startsWith("/")`, written on the character list so that it reduces
definitionally. -/
def startsWithSlash (p : String) : Bool :=
  match p.data with
  | c :: _ => c == '/'
  | [] => false

/-- `p.startsWith("/") ? p.substring(1) : p` — strip one leading slash. -/
def stripSlash (p : String) : String :=
  if startsWithSlash p then String.mk p.data.tail else p

/-- Base error shape of `error.ts`: name, human message, client-safe data
(here string-valued, which covers every field the core itself writes). -/
structure CtxBaseError where
  name : String
  msg : String
  data : AList
  deriving DecidableEq

/-- A thrown value: either an internal router error (an instance of the
dedicated `CtxRouterError` subtype), a user error built on the same base
shape, or an arbitrary other thrown value. -/
inductive Err where
  | router (e : CtxBaseError)
  | user (e : CtxBaseError)
  | other (tag : Nat)
  deriving DecidableEq

/-- The `HANDLER_NOT_FOUND` error thrown by the exec lifecycle:
`ctxRouterErr.handler.HANDLER_NOT_FOUND({ msg: ..., data: { route: rawKey } })`
with `rawKey = op ? op + " " + raw : raw`. -/
def handlerNotFoundErr (op : Option String) (raw : String) : CtxBaseError :=
  let rawKey := if strTruthy op then op.getD "" ++ " " ++ raw else raw
  { name := "HANDLER_NOT_FOUND"
    msg := "Handler not found for route: " ++ rawKey
    data := [("route", rawKey)] }

/-- The error thrown by `assertNotSealed` in `router.ts`
(`new Error("Hooks must be registered during startup, before exec()")`). -/
def hooksSealedError : CtxBaseError :=
  { name := "Error"
    msg := "Hooks must be registered during startup, before exec()"
    data := [] }

/-- The error thrown by `registerRoute` when no segment was accumulated. -/
def missingSegmentsError : CtxBaseError :=
  { name := "Error"
    msg := "Cannot register handler without segments. Use .route(segment) first."
    data := [] }

/-- `ctx.req.route` — the invocation identity plus the pattern slot the core
writes after a match. -/
structure ReqRoute where
  op : Option String
  raw : String
  pattern : String
  deriving DecidableEq

/-- `ctx.meta.ts` (the field `in` is spelled `tin`: `in` is a Lean keyword). -/
structure TsMeta where
  tin : Int
  clientIn : Int
  out : Int
  execTime : Int
  owd : Int
  deriving DecidableEq

/-- `ctx.meta.monitor`. -/
structure MonitorMeta where
  traceId : String
  spanId : String
  deriving DecidableEq

/-- `ctx.meta.instance` snapshot (field `instance` is a Lean keyword, so the
enclosing structure names it `instSnap`). -/
structure InstanceSnapshot where
  id : String
  createdAt : Int
  seq : Int
  inflight : Int
  cpu : Int
  mem : Int
  deriving DecidableEq

/-- `ctx.meta`. The optional `log` buffer is preserved by the begin stage. -/
structure Meta where
  serviceName : String
  instSnap : InstanceSnapshot
  ts : TsMeta
  monitor : MonitorMeta
  log : Option (List String)
  deriving DecidableEq

/-- The context fields the exec lifecycle reads or writes. -/
structure Ctx where
  id : String
  reqRoute : ReqRoute
  reqData : AList
  clientInvocationTs : Option Int
  meta : Meta
  deriving DecidableEq

/-- `TRouterInstance` of `instance.ts`. -/
structure RInstance where
  ID : String
  TRACE_ID : String
  CREATED_AT : Int
  SERVICE_NAME : String
  SEQ : Int
  INFLIGHT : Int
  LAST_HEARTBEAT : Int
  PORT : Int
  deriving DecidableEq

/-- `incrementInflight(instance)` — `++instance.INFLIGHT`. -/
def incrementInflight (i : RInstance) : RInstance :=
  { i with INFLIGHT := i.INFLIGHT + 1 }

/-- `decrementInflight(instance)` — `--instance.INFLIGHT`. -/
def decrementInflight (i : RInstance) : RInstance :=
  { i with INFLIGHT := i.INFLIGHT - 1 }

/-- `getNextSeq(instance)` — `++instance.SEQ`, returning the new value. -/
def getNextSeq (i : RInstance) : RInstance × Int :=
  ({ i with SEQ := i.SEQ + 1 }, i.SEQ + 1)

/-- An async handler or middleware: returns the threaded context or throws.
A throw carries the state of the by-reference context object at that moment. -/
abbrev HandlerFn := Ctx → Except (Err × Ctx) Ctx

/-- A side-effect lifecycle hook (`(ctx) => void | Promise<void>`): it mutates
the context in place — modelled as returning the mutated context — or throws. -/
abbrev HookFn := Ctx → Except (Err × Ctx) Ctx

/-- The `onExecError(ctx, error)` hook. -/
abbrev ErrorHookFn := Ctx → Err → Except (Err × Ctx) Ctx

/-- `THooks` (current variant): the four optional exec-lifecycle slots. -/
structure Hooks where
  onExecBefore : Option HookFn
  onExecAfter : Option HookFn
  onExecError : Option ErrorHookFn
  onExecFinally : Option HookFn

/-- `await hooks.onExecX?.(ctx)` — run a hook slot if present. -/
def runOptHook : Option HookFn → Ctx → Except (Err × Ctx) Ctx
  | none, c => .ok c
  | some h, c => h c

/-- The external `path-to-regexp` match capability: `false` or captured
parameters. -/
abbrev Matcher := String → Option AList

/-- `TRoute`: op discriminator, canonical pattern, separator (kept for
logging), compiled matcher, composed handler. -/
structure Route where
  op : Option String
  pattern : String
  separator : String
  matcher : Matcher
  handler : HandlerFn

/-- `TRouteEntry`: a route plus its original segments (diagnostics only). -/
structure RouteEntry where
  route : Route
  segments : List String

/-- The two-tier route store of `CtxRouter`: `exactRoutes` is a JS `Map`
(modelled as an association list with replace-on-set), `paramRoutes` is the
registration-ordered list. -/
structure RouterStore where
  exactRoutes : List (String × RouteEntry)
  paramRoutes : List RouteEntry

/-- JS `Map.get`. -/
def mapGet (m : List (String × RouteEntry)) (k : String) : Option RouteEntry :=
  (m.find? (fun p => p.1 == k)).map (fun p => p.2)

/-- JS `Map.set`: replace the binding of an existing key, else append. -/
def mapSet (m : List (String × RouteEntry)) (k : String) (v : RouteEntry) :
    List (String × RouteEntry) :=
  match m with
  | [] => [(k, v)]
  | (k', v') :: rest =>
    if k' == k then (k, v) :: rest else (k', v') :: mapSet rest k v

/-- The loop body of `analyzeSegments`: first component accumulates the verb
tokens (`httpSegments`), second the base segments (`nonHttpSegments`). A
segment containing a verb token is tokenized; its non-verb tokens are
slash-stripped and empties dropped. A segment without a verb token is kept
whole and unmodified. -/
def analyzeAux : List String → List String × List String
  | [] => ([], [])
  | seg :: rest =>
    if (splitWs seg).any isVerb then
      ((splitWs seg).filter isVerb ++ (analyzeAux rest).1,
       ((((splitWs seg).filter (fun p => !isVerb p)).map stripSlash).filter
          (fun p => p.length != 0)) ++ (analyzeAux rest).2)
    else ((analyzeAux rest).1, seg :: (analyzeAux rest).2)

/-- Result of `analyzeSegments`. -/
structure AnalyzeResult where
  hasHttp : Bool
  httpOp : Option String
  nonHttpSegments : List String
  deriving DecidableEq

/-- `analyzeSegments(segments)` of `router.ts`: HTTP-grammar detection.
`httpOp` is set only when `httpSegments[0]` is truthy. -/
def analyzeSegments (segments : List String) : AnalyzeResult :=
  let hs := (analyzeAux segments).1
  { hasHttp := !hs.isEmpty
    httpOp :=
      match hs.head? with
      | some h => if h = "" then none else some h
      | none => none
    nonHttpSegments := (analyzeAux segments).2 }

/-- The middleware loop of `composedHandler`: thread the context through the
chain, propagating a throw. -/
def runChain : List HandlerFn → Ctx → Except (Err × Ctx) Ctx
  | [], c => .ok c
  | f :: rest, c =>
    match f c with
    | .ok c2 => runChain rest c2
    | .error ec => .error ec

/-- `composedHandler`: middleware chain first, then the terminal handler. -/
def composedHandler (mw : List HandlerFn) (h : HandlerFn) : HandlerFn :=
  fun c =>
    match runChain mw c with
    | .ok c2 => h c2
    | .error ec => .error ec

/-- `buildPattern(segments, isHttp)`. -/
def buildPattern (segments : List String) (isHttp : Bool) : String :=
  String.intercalate (if isHttp then "/" else ".") segments

/-- `buildHttpPattern(segments)`: slash-joined, prefixed with `/` if missing. -/
def buildHttpPattern (segments : List String) : String :=
  let p := buildPattern segments true
  if startsWithSlash p then p else "/" ++ p

/-- `route.pattern.includes(":")` — parameterized-pattern test. -/
def hasParams (pattern : String) : Bool := pattern.data.contains ':'

/-- The exact-tier storage key: `route.op ? "${op}:${pattern}" : ":${pattern}"`. -/
def storageKey (op : Option String) (pattern : String) : String :=
  if strTruthy op then op.getD "" ++ ":" ++ pattern else ":" ++ pattern

/-- `addRouteToStorage(route, segments)`: parameterized patterns are appended
to `paramRoutes` (registration order); the rest go into the exact map. -/
def addRouteToStorage (store : RouterStore) (r : Route) (segments : List String) :
    RouterStore :=
  if hasParams r.pattern then
    { store with paramRoutes := store.paramRoutes ++ [⟨r, segments⟩] }
  else
    { store with
        exactRoutes := mapSet store.exactRoutes (storageKey r.op r.pattern) ⟨r, segments⟩ }

/-- The route values built by `registerRoute` for one committed chain, in
commit order: the primary dot-identity route always, plus the slash HTTP
variant when `hasHttp && httpOp`. `pm` is the `pathMatch` compiler of
`path-to-regexp` (an external capability). -/
def builtRoutes (pm : String → Matcher) (segments : List String)
    (mw : List HandlerFn) (h : HandlerFn) : List Route :=
  let a := analyzeSegments segments
  let pattern := buildPattern a.nonHttpSegments false
  let primary : Route :=
    { op := if a.hasHttp && strTruthy a.httpOp then a.httpOp else none
      pattern := pattern
      separator := "."
      matcher := pm pattern
      handler := composedHandler mw h }
  if a.hasHttp && strTruthy a.httpOp then
    let hp := buildHttpPattern a.nonHttpSegments
    [primary,
     { op := a.httpOp
       pattern := hp
       separator := "/"
       matcher := pm hp
       handler := composedHandler mw h }]
  else [primary]

/-- Commit every built route into the store via `addRouteToStorage`. -/
def commitRoutes (pm : String → Matcher) (segments : List String)
    (mw : List HandlerFn) (h : HandlerFn) (store : RouterStore) : RouterStore :=
  (builtRoutes pm segments mw h).foldl (fun s r => addRouteToStorage s r segments) store

/-- `registerRoute()` of `router.ts`: guard on an empty segment chain, then
compose the pipeline and commit the route(s). (The null-handler guard is
unrepresentable here: the handler argument is typed.) -/
def registerRoute (pm : String → Matcher) (store : RouterStore)
    (segments : List String) (mw : List HandlerFn) (h : HandlerFn) :
    Except CtxBaseError RouterStore :=
  if segments.isEmpty then .error missingSegmentsError
  else .ok (commitRoutes pm segments mw h store)

/-- The exact lookup key computed by `exec`:
`op ? "${op}:${raw}" : ":${raw}"` (JS truthiness: an empty string falls into
the second branch). -/
def exactKey (op : Option String) (raw : String) : String :=
  match op with
  | some o => if o = "" then ":" ++ raw else o ++ ":" ++ raw
  | none => ":" ++ raw

/-- The op gate of the parameterized scan:
`if (route.op !== undefined) { if (!op || route.op !== op) continue; }`. -/
def opCheck (routeOp invOp : Option String) : Bool :=
  match routeOp with
  | none => true
  | some ro =>
    match invOp with
    | none => false
    | some o => if o = "" then false else ro == o

/-- The `for (const entry of router.paramRoutes)` loop: first entry passing
both the op gate and the pattern match, with its captured parameters. -/
def scanParams : List RouteEntry → Option String → String →
    Option (RouteEntry × AList)
  | [], _, _ => none
  | e :: rest, op, raw =>
    if opCheck e.route.op op then
      match e.route.matcher raw with
      | some ps => some (e, ps)
      | none => scanParams rest op raw
    else scanParams rest op raw

/-- Outcome of route resolution inside `exec`. -/
inductive Resolution where
  | exact (e : RouteEntry)
  | param (e : RouteEntry) (ps : AList)
  | notFound

/-- The resolution algorithm of `exec` (lines 371-412): exact map first,
then the registration-ordered parameterized scan. -/
def resolve (store : RouterStore) (op : Option String) (raw : String) :
    Resolution :=
  match mapGet store.exactRoutes (exactKey op raw) with
  | some e => .exact e
  | none =>
    match scanParams store.paramRoutes op raw with
    | some (e, ps) => .param e ps
    | none => .notFound

/-- Spec-side exact key, following §3 of the spec verbatim:
`op ? "${op}:${pattern}" : ":${pattern}"` read as "when `op` is defined". -/
def exactKeySpec (op : Option String) (raw : String) : String :=
  match op with
  | some o => o ++ ":" ++ raw
  | none => ":" ++ raw

/-- Spec-side acceptance test for a parameterized entry, following §4.2:
"if the entry's route has a defined `op`, skip unless it equals the
invocation's `op` exactly (empty/absent invocation `op` never satisfies a
defined `op` requirement); then attempt the pattern match". -/
def entryAccepts (invOp : Option String) (raw : String) (e : RouteEntry) : Bool :=
  (match e.route.op with
   | none => true
   | some ro =>
     match invOp with
     | none => false
     | some o => !(o == "") && ro == o)
  && (e.route.matcher raw).isSome

/-- Spec-side resolution, following the ordered algorithm of §4.2 as written:
exact hit always preferred; otherwise the first parameterized entry (in
registration order) accepted by `entryAccepts` is used. -/
def resolveSpec (store : RouterStore) (op : Option String) (raw : String) :
    Resolution :=
  match mapGet store.exactRoutes (exactKeySpec op raw) with
  | some e => .exact e
  | none =>
    match store.paramRoutes.find? (entryAccepts op raw) with
    | some e =>
      match e.route.matcher raw with
      | some ps => .param e ps
      | none => .notFound
    | none => .notFound

/-- Context update on an exact hit: `ctx.req.route.pattern = route.pattern`. -/
def exactMatchCtx (ctx : Ctx) (e : RouteEntry) : Ctx :=
  { ctx with reqRoute := { ctx.reqRoute with pattern := e.route.pattern } }

/-- Context update on a parameterized hit:
`ctx.req.data = { ...matchedParams, ...ctx.req.data }` (matched parameters
have lowest priority) and `ctx.req.route.pattern = route.pattern`. -/
def paramMatchCtx (ctx : Ctx) (e : RouteEntry) (ps : AList) : Ctx :=
  { ctx with
      reqData := ps ++ ctx.reqData
      reqRoute := { ctx.reqRoute with pattern := e.route.pattern } }

/-- Route matching and dispatch: the body of `exec`'s try block after the
before hook. On a hit the pattern (and, for the param tier, the data merge)
is written, the handler runs, then `onExecAfter`; on a miss the structured
`HANDLER_NOT_FOUND` router error is thrown. -/
def matchStage (store : RouterStore) (hooks : Hooks) (ctx : Ctx) :
    Except (Err × Ctx) Ctx :=
  match resolve store ctx.reqRoute.op ctx.reqRoute.raw with
  | .exact e =>
    (match e.route.handler (exactMatchCtx ctx e) with
     | .ok c2 => runOptHook hooks.onExecAfter c2
     | .error ec => .error ec)
  | .param e ps =>
    (match e.route.handler (paramMatchCtx ctx e ps) with
     | .ok c2 => runOptHook hooks.onExecAfter c2
     | .error ec => .error ec)
  | .notFound =>
    .error (Err.router (handlerNotFoundErr ctx.reqRoute.op ctx.reqRoute.raw), ctx)

/-- The whole try block of `exec`: `await hooks.onExecBefore?.(ctx)` then
matching and dispatch. -/
def tryStage (store : RouterStore) (hooks : Hooks) (ctx : Ctx) :
    Except (Err × Ctx) Ctx :=
  match runOptHook hooks.onExecBefore ctx with
  | .ok c2 => matchStage store hooks c2
  | .error ec => .error ec

/-- The catch block of `exec`: with an `onExecError` hook the dispatch is
recovered (`return ctx` after the side-effect hook); without one the caught
error is rethrown unchanged. -/
def catchStage (hooks : Hooks) :
    Except (Err × Ctx) Ctx → Except (Err × Ctx) Ctx
  | .ok c => .ok c
  | .error (e, c) =>
    match hooks.onExecError with
    | some h =>
      (match h c e with
       | .ok c2 => .ok c2
       | .error ec => .error ec)
    | none => .error (e, c)

/-- The begin bookkeeping of `exec`: stamp id, instance snapshot, timestamps
(`clientIn` falls back to `inTime`), trace/span identifiers, preserving a
caller-attached log buffer. `inst` is the instance AFTER `getNextSeq` and
`incrementInflight`. -/
def beginCtx (ctx : Ctx) (inst : RInstance) (seq : Int) (inTime cpu mem : Int) :
    Ctx :=
  let traceId := inst.ID ++ "-" ++ toString seq
  let clientIn := ctx.clientInvocationTs.getD inTime
  { ctx with
      id := traceId
      meta :=
        { serviceName := ctx.meta.serviceName
          instSnap :=
            { id := inst.ID, createdAt := inst.CREATED_AT, seq := seq
              inflight := inst.INFLIGHT, cpu := cpu, mem := mem }
          ts := { tin := inTime, clientIn := clientIn, out := -1
                  execTime := -1, owd := inTime - clientIn }
          monitor := { traceId := traceId, spanId := traceId }
          log := ctx.meta.log } }

/-- The end bookkeeping inside the finally block: replace `ctx.meta.ts` with
`out` and `execTime = out - in` filled in. -/
def finalizeTs (c : Ctx) (outTime : Int) : Ctx :=
  { c with
      meta :=
        { c.meta with
            ts := { tin := c.meta.ts.tin, clientIn := c.meta.ts.clientIn
                    out := outTime, execTime := outTime - c.meta.ts.tin
                    owd := c.meta.ts.owd } } }

/-- The current `ctx` binding at entry to the finally block. -/
def ctxOf : Except (Err × Ctx) Ctx → Ctx
  | .ok c => c
  | .error (_, c) => c

/-- Result of one `exec` call: the returned/thrown outcome plus the instance
counters. -/
structure ExecResult where
  out : Except (Err × Ctx) Ctx
  inst : RInstance

/-- The finally block of `exec`: `await hooks.onExecFinally?.(ctx)`, then the
timestamp bookkeeping, then `decrementInflight`. Per JS semantics, an
exception thrown by the finally hook aborts the REST of the finally block
(timestamps and the decrement are skipped) and supersedes the pending
return/throw. -/
def finallyStage (hooks : Hooks) (inst : RInstance) (outTime : Int)
    (pending : Except (Err × Ctx) Ctx) : ExecResult :=
  match runOptHook hooks.onExecFinally (ctxOf pending) with
  | .error ec => { out := .error ec, inst := inst }
  | .ok c2 =>
    let c3 := finalizeTs c2 outTime
    { out :=
        match pending with
        | .ok _ => .ok c3
        | .error (e, _) => .error (e, c3)
      inst := decrementInflight inst }

/-- `exec(ctx, router, hooks, instance, statsEnabled)` — the current
lifecycle variant. `inTime`/`outTime` are the two `Date.now()` readings and
`cpu`/`mem` the `STATS` globals (external effects passed as parameters; the
`statsEnabled`-gated stats refresh touches only those globals). -/
def exec (store : RouterStore) (hooks : Hooks) (inst0 : RInstance) (ctx0 : Ctx)
    (inTime outTime cpu mem : Int) : ExecResult :=
  let seqPair := getNextSeq inst0
  let inst1 := incrementInflight seqPair.1
  let ctx1 := beginCtx ctx0 inst1 seqPair.2 inTime cpu mem
  finallyStage hooks inst1 outTime (catchStage hooks (tryStage store hooks ctx1))

/-- Projection: the error thrown out of an outcome, if any. -/
def thrownErr : Except (Err × Ctx) Ctx → Option Err
  | .error (e, _) => some e
  | .ok _ => none

/-- The hook registry state of `CtxRouter`: four slots plus the one-way
`sealed` flag. -/
structure HookState where
  hooks : Hooks
  sealed : Bool

/-- `assertNotSealed()`. -/
def assertNotSealed (s : HookState) : Except CtxBaseError Unit :=
  if s.sealed then .error hooksSealedError else .ok ()

/-- `hook.onExec.before(fn)`. -/
def setOnExecBefore (s : HookState) (f : HookFn) : Except CtxBaseError HookState :=
  match assertNotSealed s with
  | .error e => .error e
  | .ok _ => .ok { s with hooks := { s.hooks with onExecBefore := some f } }

/-- `hook.onExec.after(fn)`. -/
def setOnExecAfter (s : HookState) (f : HookFn) : Except CtxBaseError HookState :=
  match assertNotSealed s with
  | .error e => .error e
  | .ok _ => .ok { s with hooks := { s.hooks with onExecAfter := some f } }

/-- `hook.onExec.error(fn)`. -/
def setOnExecError (s : HookState) (f : ErrorHookFn) :
    Except CtxBaseError HookState :=
  match assertNotSealed s with
  | .error e => .error e
  | .ok _ => .ok { s with hooks := { s.hooks with onExecError := some f } }

/-- `hook.onExec.finally(fn)`. -/
def setOnExecFinally (s : HookState) (f : HookFn) :
    Except CtxBaseError HookState :=
  match assertNotSealed s with
  | .error e => .error e
  | .ok _ => .ok { s with hooks := { s.hooks with onExecFinally := some f } }

/-- `this.sealed = true` at the top of `CtxRouter.exec` (idempotent). -/
def sealOnExec (s : HookState) : HookState := { s with sealed := true }

/-- One observable operation against the hook registry. -/
inductive RouterOp where
  | setBefore (f : HookFn)
  | setAfter (f : HookFn)
  | setError (f : ErrorHookFn)
  | setFinally (f : HookFn)
  | execCall

/-- Effect of one operation on the registry state: a setter that throws
leaves the state unchanged; `exec` seals. -/
def stepOp (s : HookState) (op : RouterOp) : HookState :=
  match op with
  | .setBefore f => match setOnExecBefore s f with | .ok s' => s' | .error _ => s
  | .setAfter f => match setOnExecAfter s f with | .ok s' => s' | .error _ => s
  | .setError f => match setOnExecError s f with | .ok s' => s' | .error _ => s
  | .setFinally f => match setOnExecFinally s f with | .ok s' => s' | .error _ => s
  | .execCall => sealOnExec s

/-- Run a sequence of registry operations, left to right. -/
def runOps : HookState → List RouterOp → HookState
  | s, [] => s
  | s, op :: rest => runOps (stepOp s op) rest

/-- Whether an operation is an `exec` call. -/
def isExecOp : RouterOp → Bool
  | .execCall => true
  | _ => false

/-! Concrete fixtures used to evaluate the model on specific inputs. -/

/-- A freshly created instance (SEQ = 0, INFLIGHT = 0). -/
def inst0 : RInstance :=
  { ID := "abc123", TRACE_ID := "tr0", CREATED_AT := 0, SERVICE_NAME := "svc"
    SEQ := 0, INFLIGHT := 0, LAST_HEARTBEAT := 0, PORT := 3000 }

/-- The default placeholder meta block produced by `newCtx`. -/
def meta0 : Meta :=
  { serviceName := "svc"
    instSnap := { id := "abc123", createdAt := 0, seq := -1, inflight := -1
                  cpu := -1, mem := -1 }
    ts := { tin := -1, clientIn := -1, out := -1, execTime := -1, owd := -1 }
    monitor := { traceId := "PENDING", spanId := "PENDING" }
    log := none }

/-- A fresh context with the given invocation identity, as an adapter would
hand it to `exec`. -/
def mkCtx (op : Option String) (raw : String) : Ctx :=
  { id := "PENDING"
    reqRoute := { op := op, raw := raw, pattern := "PENDING" }
    reqData := []
    clientInvocationTs := none
    meta := meta0 }

/-- All four hook slots empty. -/
def noHooks : Hooks :=
  { onExecBefore := none, onExecAfter := none, onExecError := none
    onExecFinally := none }

/-- A store with no routes. -/
def emptyStore : RouterStore := { exactRoutes := [], paramRoutes := [] }

/-- Hooks whose `onExecFinally` throws (a user finally hook that fails). -/
def finThrowHooks : Hooks :=
  { onExecBefore := none, onExecAfter := none, onExecError := none
    onExecFinally := some (fun c => .error (Err.other 0, c)) }

/-- A stub `pathMatch` compiler that never matches (the compiled matchers are
irrelevant to exact-tier and registration facts). -/
def pm0 : String → Matcher := fun _ _ => none

/-- A handler that returns its context unchanged. -/
def h0 : HandlerFn := fun c => .ok c

/-- A handler that throws, carrying the context it was handed (a handler that
does not mutate the context before failing). -/
def hThrow : HandlerFn := fun c => .error (Err.other 7, c)

/-- A concrete matcher for the pattern `job.:id` that recognizes `job.42`. -/
def mJob : Matcher := fun raw => if raw == "job.42" then some [("id", "42")] else none

/-- A parameterized route entry for `job.:id` whose handler throws. -/
def jobEntry : RouteEntry :=
  { route := { op := none, pattern := "job.:id", separator := "."
               matcher := mJob, handler := hThrow }
    segments := ["job.:id"] }

/-- A store holding only the `job.:id` parameterized route. -/
def jobStore : RouterStore := { exactRoutes := [], paramRoutes := [jobEntry] }

/-- An unsealed registry with empty slots. -/
def hs0 : HookState := { hooks := noHooks, sealed := false }

/-- The spec's P5 chain: `["job", ":id", "GET"]`. -/
def segsJob : List String := ["job", ":id", "GET"]

/-- Spec-side description of one segment's contribution to the base list, as
the detection actually behaves (amended C5): a segment containing a verb
token is tokenized, its non-verb tokens slash-stripped with empties dropped;
a segment without a verb token is kept whole and unmodified. -/
def verbSegBase (seg : String) : List String :=
  if (splitWs seg).any isVerb then
    (((splitWs seg).filter (fun p => !isVerb p)).map stripSlash).filter
      (fun p => p.length != 0)
  else [seg]

/-- The base segment list as claim C5 states it: EVERY non-verb token of the
whitespace tokenization, with a leading path separator stripped, becomes an
element of the base list. -/
def claimedBase (segs : List String) : List String :=
  ((segs.flatMap splitWs).filter (fun p => !isVerb p)).map stripSlash

/-! Helper lemmas. -/

theorem isVerb_ne_empty {v : String} (h : isVerb v = true) : ¬ v = "" := by
  intro hv
  subst hv
  exact absurd h (by decide)

theorem head?_filter_eq_find? {α : Type} (p : α → Bool) (l : List α) :
    (l.filter p).head? = l.find? p := by
  induction l with
  | nil => rfl
  | cons a t ih =>
    simp only [List.filter, List.find?]
    cases h : p a <;> simp [h, ih]

theorem not_isEmpty_filter {α : Type} (p : α → Bool) (l : List α) :
    (!(l.filter p).isEmpty) = l.any p := by
  induction l with
  | nil => rfl
  | cons a t ih =>
    cases h : p a <;> simp [List.filter_cons, h, ih]

theorem analyzeAux_fst (segs : List String) :
    (analyzeAux segs).1 = (segs.flatMap splitWs).filter isVerb := by
  induction segs with
  | nil => rfl
  | cons seg rest ih =>
    simp only [analyzeAux, List.flatMap_cons, List.filter_append]
    by_cases h : (splitWs seg).any isVerb = true
    · simp [h, ih]
    · have hno : (splitWs seg).filter isVerb = [] := by
        rw [List.filter_eq_nil_iff]
        intro a ha hpa
        exact h (List.any_eq_true.2 ⟨a, ha, hpa⟩)
      simp [h, hno, ih]

theorem analyzeAux_snd (segs : List String) :
    (analyzeAux segs).2 = segs.flatMap verbSegBase := by
  induction segs with
  | nil => rfl
  | cons seg rest ih =>
    simp only [analyzeAux, List.flatMap_cons, verbSegBase]
    by_cases h : (splitWs seg).any isVerb = true
    · simp [h, ih]
    · simp [h, ih]

theorem analyzeSegments_hasHttp (segs : List String) :
    (analyzeSegments segs).hasHttp = (segs.flatMap splitWs).any isVerb := by
  simp only [analyzeSegments, analyzeAux_fst]
  exact not_isEmpty_filter isVerb (segs.flatMap splitWs)

theorem analyzeSegments_httpOp (segs : List String) :
    (analyzeSegments segs).httpOp = (segs.flatMap splitWs).find? isVerb := by
  simp only [analyzeSegments, analyzeAux_fst, ← head?_filter_eq_find?]
  cases hl : (segs.flatMap splitWs).filter isVerb with
  | nil => rfl
  | cons v t =>
    have hv : isVerb v = true := by
      have hm : v ∈ (segs.flatMap splitWs).filter isVerb := by
        rw [hl]; exact List.mem_cons_self v t
      exact (List.mem_filter.1 hm).2
    simp [isVerb_ne_empty hv]

theorem analyzeSegments_nonHttp (segs : List String) :
    (analyzeSegments segs).nonHttpSegments = segs.flatMap verbSegBase := by
  simp only [analyzeSegments]
  exact analyzeAux_snd segs

theorem exactKey_eq_spec (op : Option String) (raw : String) :
    exactKey op raw = exactKeySpec op raw := by
  cases op with
  | none => rfl
  | some o =>
    simp only [exactKey, exactKeySpec]
    by_cases h : o = ""
    · subst h; rw [if_pos rfl]; rfl
    · rw [if_neg h]

theorem opCheck_eq_spec (routeOp invOp : Option String) :
    opCheck routeOp invOp =
      (match routeOp with
       | none => true
       | some ro =>
         match invOp with
         | none => false
         | some o => !(o == "") && ro == o) := by
  cases routeOp with
  | none => rfl
  | some ro =>
    cases invOp with
    | none => rfl
    | some o =>
      simp only [opCheck]
      by_cases h : o = ""
      · subst h; simp
      · simp [h]

theorem entryAccepts_eq (op : Option String) (raw : String) (e : RouteEntry) :
    entryAccepts op raw e = (opCheck e.route.op op && (e.route.matcher raw).isSome) := by
  rw [opCheck_eq_spec]
  rfl

theorem scanParams_eq_spec (l : List RouteEntry) (op : Option String) (raw : String) :
    (match scanParams l op raw with
     | some (e, ps) => Resolution.param e ps
     | none => Resolution.notFound) =
    (match l.find? (entryAccepts op raw) with
     | some e =>
       match e.route.matcher raw with
       | some ps => Resolution.param e ps
       | none => Resolution.notFound
     | none => Resolution.notFound) := by
  induction l with
  | nil => rfl
  | cons e rest ih =>
    simp only [scanParams, List.find?, entryAccepts_eq]
    by_cases h1 : opCheck e.route.op op = true
    · cases h2 : e.route.matcher raw with
      | some ps => simp [h1, h2]
      | none => simp [h1, h2, ih]
    · have h1f : opCheck e.route.op op = false := by
        cases hb : opCheck e.route.op op
        · rfl
        · exact absurd hb h1
      simp [h1f, ih]

theorem lookupR_append (ps data : AList) (k : String) :
    lookupR (ps ++ data) k =
      (match lookupR data k with
       | some v => some v
       | none => lookupR ps k) := by
  induction ps with
  | nil =>
    cases h : lookupR data k <;> simp [h, lookupR]
  | cons p ps ih =>
    rw [List.cons_append]
    simp only [lookupR]
    rw [ih]
    cases h : lookupR data k with
    | some v => rfl
    | none => rfl

theorem hookState_sealed_stays (ops : List RouterOp) (s : HookState)
    (h : s.sealed = true) : (runOps s ops).sealed = true := by
  induction ops generalizing s with
  | nil => exact h
  | cons op rest ih =>
    have hstep : (stepOp s op).sealed = true := by
      cases op <;>
        simp [stepOp, setOnExecBefore, setOnExecAfter, setOnExecError,
          setOnExecFinally, assertNotSealed, sealOnExec, h]
    exact ih (stepOp s op) hstep

theorem hookState_step_sealed (s : HookState) (op : RouterOp)
    (h : s.sealed = false) : (stepOp s op).sealed = isExecOp op := by
  cases op <;>
    simp [stepOp, setOnExecBefore, setOnExecAfter, setOnExecError,
      setOnExecFinally, assertNotSealed, sealOnExec, isExecOp, h]

theorem finallyStage_inst (hooks : Hooks) (inst : RInstance) (outTime : Int)
    (pending : Except (Err × Ctx) Ctx)
    (h : ∃ c2, runOptHook hooks.onExecFinally (ctxOf pending) = .ok c2) :
    (finallyStage hooks inst outTime pending).inst = decrementInflight inst := by
  obtain ⟨c2, hc⟩ := h
  simp [finallyStage, hc]

/-! Claim theorems. -/

/-- Claim C3 (confirmed): resolution follows the spec's exact two-tier
algorithm. First conjunct: the code's resolution equals the spec-worded
`resolveSpec` — exact key `op ? "${op}:${raw}" : ":${raw}"` looked up first,
an exact hit always preferred; on a miss the parameterized routes are
scanned in registration order, entries with a defined op skipped unless it
equals the invocation op exactly (absent or empty invocation op never
satisfies a defined op), the first entry passing op-check and pattern-match
used. Second conjunct: a miss in both tiers makes the dispatch stage throw
the structured HANDLER_NOT_FOUND error. -/
theorem C3_resolution_follows_spec :
    (∀ (store : RouterStore) (op : Option String) (raw : String),
       resolve store op raw = resolveSpec store op raw) ∧
    (∀ (store : RouterStore) (hooks : Hooks) (ctx : Ctx),
       resolve store ctx.reqRoute.op ctx.reqRoute.raw = Resolution.notFound →
       matchStage store hooks ctx =
         .error (Err.router (handlerNotFoundErr ctx.reqRoute.op ctx.reqRoute.raw), ctx)) := by
  constructor
  · intro store op raw
    simp only [resolve, resolveSpec, exactKey_eq_spec]
    cases mapGet store.exactRoutes (exactKeySpec op raw) with
    | some e => rfl
    | none => exact scanParams_eq_spec store.paramRoutes op raw
  · intro store hooks ctx h
    unfold matchStage
    rw [h]

/-- Witness for C3: the empty store resolves nothing, and the dispatch stage
throws the structured HANDLER_NOT_FOUND error for it. -/
theorem C3_witness :
    resolve emptyStore (mkCtx (some "GET") "/x").reqRoute.op
        (mkCtx (some "GET") "/x").reqRoute.raw = Resolution.notFound ∧
    matchStage emptyStore noHooks (mkCtx (some "GET") "/x") =
      .error (Err.router (handlerNotFoundErr (mkCtx (some "GET") "/x").reqRoute.op
                (mkCtx (some "GET") "/x").reqRoute.raw),
              mkCtx (some "GET") "/x") :=
  ⟨rfl, C3_resolution_follows_spec.2 emptyStore noHooks (mkCtx (some "GET") "/x") rfl⟩

/-- Claim C5 (corrected). As stated, the claim fails: tokenization and
slash-stripping are applied only inside segments that contain a verb token
(see the counterexample). Amended claim proved here: each segment is
tokenized on whitespace; the chain is HTTP-flavored exactly when some token
is case-insensitively an HTTP verb; the first verb token found (original
casing) becomes the op; and the base list is built per segment — a segment
containing a verb token contributes its non-verb tokens slash-stripped with
empties dropped, while a segment without a verb token is kept whole and
unmodified. -/
theorem C5_detection_amended :
    (∀ segs, (analyzeSegments segs).hasHttp = (segs.flatMap splitWs).any isVerb) ∧
    (∀ segs, (analyzeSegments segs).httpOp = (segs.flatMap splitWs).find? isVerb) ∧
    (∀ segs, (analyzeSegments segs).nonHttpSegments = segs.flatMap verbSegBase) :=
  ⟨analyzeSegments_hasHttp, analyzeSegments_httpOp, analyzeSegments_nonHttp⟩

/-- Counterexample for C5 as stated: for the chain `["/user"]` (which has no
verb token) the claim's base list — every non-verb token with its leading
path separator stripped — is `["user"]`, but the code keeps the verb-free
segment whole: `["/user"]`. -/
theorem C5_counterexample :
    (analyzeSegments ["/user"]).nonHttpSegments = ["/user"] ∧
    claimedBase ["/user"] = ["user"] ∧
    (analyzeSegments ["/user"]).nonHttpSegments ≠ claimedBase ["/user"] := by
  refine ⟨rfl, rfl, ?_⟩
  decide

/-- Claim C9 (confirmed): the stored op is the verb token with its original
casing (detection is case-insensitive but no uppercasing is applied to the
stored op — first conjunct), and dispatch-time op comparison is exact string
equality in both tiers: a route registered from the segment `"get user"`
resolves under op `"get"` but not under `"GET"`, and a route registered from
`"GET user"` resolves under `"GET"` but not under `"get"`. -/
theorem C9_casing_preserved_and_exact :
    (∀ segs, (analyzeSegments segs).httpOp = (segs.flatMap splitWs).find? isVerb) ∧
    (∀ (pm : String → Matcher) (mw : List HandlerFn) (h : HandlerFn),
       resolve (commitRoutes pm ["get user"] mw h emptyStore) (some "GET") "user" =
         Resolution.notFound) ∧
    (∀ (pm : String → Matcher) (mw : List HandlerFn) (h : HandlerFn),
       ∃ e, resolve (commitRoutes pm ["get user"] mw h emptyStore) (some "get") "user" =
           Resolution.exact e ∧
         e.route.op = some "get" ∧ e.route.pattern = "user") ∧
    (∀ (pm : String → Matcher) (mw : List HandlerFn) (h : HandlerFn),
       resolve (commitRoutes pm ["GET user"] mw h emptyStore) (some "get") "user" =
         Resolution.notFound) ∧
    (∀ (pm : String → Matcher) (mw : List HandlerFn) (h : HandlerFn),
       ∃ e, resolve (commitRoutes pm ["GET user"] mw h emptyStore) (some "GET") "user" =
           Resolution.exact e ∧
         e.route.op = some "GET") := by
  refine ⟨analyzeSegments_httpOp, fun pm mw h => rfl, fun pm mw h => ⟨_, rfl, rfl, rfl⟩,
    fun pm mw h => rfl, fun pm mw h => ⟨_, rfl, rfl⟩⟩

/-- Claim C4 (confirmed): a chain whose whitespace tokens contain an HTTP
verb commits exactly two routes sharing the same composed
middleware-plus-handler pipeline — the primary with the dot-joined base
pattern and the detected verb as op, and the secondary with the slash-joined
base pattern prefixed with `/` if missing and the same (never absent) op. A
chain with no verb token commits exactly one route, dot-joined, with no op.
The third conjunct: `to(handler)` with a nonempty chain commits exactly
these routes into the store. -/
theorem C4_dual_registration (pm : String → Matcher) (segments : List String)
    (mw : List HandlerFn) (h : HandlerFn) :
    ((segments.flatMap splitWs).any isVerb = true →
       ∃ v, (segments.flatMap splitWs).find? isVerb = some v ∧
         builtRoutes pm segments mw h =
           [{ op := some v
              pattern := buildPattern (analyzeSegments segments).nonHttpSegments false
              separator := "."
              matcher := pm (buildPattern (analyzeSegments segments).nonHttpSegments false)
              handler := composedHandler mw h },
            { op := some v
              pattern := buildHttpPattern (analyzeSegments segments).nonHttpSegments
              separator := "/"
              matcher := pm (buildHttpPattern (analyzeSegments segments).nonHttpSegments)
              handler := composedHandler mw h }]) ∧
    ((segments.flatMap splitWs).any isVerb = false →
       builtRoutes pm segments mw h =
         [{ op := none
            pattern := buildPattern (analyzeSegments segments).nonHttpSegments false
            separator := "."
            matcher := pm (buildPattern (analyzeSegments segments).nonHttpSegments false)
            handler := composedHandler mw h }]) ∧
    (∀ store : RouterStore, segments.isEmpty = false →
       registerRoute pm store segments mw h =
         .ok (commitRoutes pm segments mw h store)) := by
  refine ⟨?_, ?_, ?_⟩
  · intro hany
    have hhttp : (analyzeSegments segments).hasHttp = true := by
      rw [analyzeSegments_hasHttp]; exact hany
    cases hfind : (segments.flatMap splitWs).find? isVerb with
    | none =>
      exfalso
      obtain ⟨x, hx, hpx⟩ := List.any_eq_true.1 hany
      exact (List.find?_eq_none.1 hfind x hx) hpx
    | some v =>
      have hop : (analyzeSegments segments).httpOp = some v := by
        rw [analyzeSegments_httpOp, hfind]
      have hv : isVerb v = true := List.find?_some hfind
      have hne : (v == "") = false := beq_eq_false_iff_ne.mpr (isVerb_ne_empty hv)
      have hstr : strTruthy (analyzeSegments segments).httpOp = true := by
        rw [hop]; simp [strTruthy, hne]
      refine ⟨v, rfl, ?_⟩
      simp only [builtRoutes, hhttp, hop]
      simp [strTruthy, hne]
  · intro hany
    have hhttp : (analyzeSegments segments).hasHttp = false := by
      rw [analyzeSegments_hasHttp]; exact hany
    simp only [builtRoutes, hhttp]
    simp
  · intro store hne
    simp [registerRoute, hne]

/-- Witness for C4 at the spec's P5 chain `["job", ":id", "GET"]`. -/
theorem C4_witness :
    (segsJob.flatMap splitWs).any isVerb = true ∧
    (∃ v, (segsJob.flatMap splitWs).find? isVerb = some v ∧
      builtRoutes pm0 segsJob [] h0 =
        [{ op := some v
           pattern := buildPattern (analyzeSegments segsJob).nonHttpSegments false
           separator := "."
           matcher := pm0 (buildPattern (analyzeSegments segsJob).nonHttpSegments false)
           handler := composedHandler [] h0 },
         { op := some v
           pattern := buildHttpPattern (analyzeSegments segsJob).nonHttpSegments
           separator := "/"
           matcher := pm0 (buildHttpPattern (analyzeSegments segsJob).nonHttpSegments)
           handler := composedHandler [] h0 }]) :=
  ⟨by decide, (C4_dual_registration pm0 segsJob [] h0).1 (by decide)⟩

/-- Claim C1 (corrected). As stated, the claim fails: when the
`onExecFinally` hook itself throws, JS aborts the rest of the finally block,
so `decrementInflight` is skipped (see the counterexample). Amended claim
proved here: on every `exec` call whose finally hook does not throw —
including calls where the before hook, the handler pipeline, or the error
hook throws, where no route resolves, and where the error is rethrown —
the INFLIGHT gauge after completion equals its value before the call:
`incrementInflight` at begin is matched by exactly one `decrementInflight`
in the finally stage. -/
theorem C1_inflight_symmetry_amended (store : RouterStore) (hooks : Hooks)
    (inst : RInstance) (ctx : Ctx) (tIn tOut cpu mem : Int)
    (hfin : ∀ c, ∃ c2, runOptHook hooks.onExecFinally c = .ok c2) :
    (exec store hooks inst ctx tIn tOut cpu mem).inst.INFLIGHT = inst.INFLIGHT := by
  simp only [exec]
  rw [finallyStage_inst _ _ _ _ (hfin _)]
  simp [decrementInflight, incrementInflight, getNextSeq]

/-- Counterexample for C1 as stated: with a finally hook that throws, the
gauge stays at 1 after `exec` although it was 0 before the call. -/
theorem C1_counterexample :
    inst0.INFLIGHT = 0 ∧
    (exec emptyStore finThrowHooks inst0 (mkCtx (some "GET") "/x") 5 9 0 0).inst.INFLIGHT = 1 ∧
    (exec emptyStore finThrowHooks inst0 (mkCtx (some "GET") "/x") 5 9 0 0).inst.INFLIGHT ≠
      inst0.INFLIGHT := by
  refine ⟨rfl, rfl, ?_⟩
  decide

/-- Witness for C1: with no hooks installed (the finally-hook premise holds
trivially), an `exec` on the empty store restores the gauge. -/
theorem C1_witness :
    (∀ c, ∃ c2, runOptHook noHooks.onExecFinally c = .ok c2) ∧
    (exec emptyStore noHooks inst0 (mkCtx (some "GET") "/x") 5 9 0 0).inst.INFLIGHT =
      inst0.INFLIGHT :=
  ⟨fun c => ⟨c, rfl⟩,
   C1_inflight_symmetry_amended emptyStore noHooks inst0 (mkCtx (some "GET") "/x") 5 9 0 0
     (fun c => ⟨c, rfl⟩)⟩

/-- Claim C2 (confirmed): for every `exec` call whose try block reaches the
catch stage with error `e` (no route resolved, or the before hook or the
pipeline threw) and whose finally hook does not throw: with no `onExecError`
hook, `exec` rethrows exactly `e` to its caller; with an `onExecError` hook
that completes, `exec` returns a context instead of throwing. The witness
instantiates the "in particular" part: an unregistered route makes `exec`
throw the HANDLER_NOT_FOUND error when no error hook is set. -/
theorem C2_error_hook_policy (store : RouterStore) (hooks : Hooks)
    (inst : RInstance) (ctx : Ctx) (tIn tOut cpu mem : Int) (e : Err) (c : Ctx)
    (hcatch : tryStage store hooks
        (beginCtx ctx (incrementInflight (getNextSeq inst).1) (getNextSeq inst).2 tIn cpu mem) =
      .error (e, c))
    (hfin : ∀ c1, ∃ c2, runOptHook hooks.onExecFinally c1 = .ok c2) :
    (hooks.onExecError = none →
       ∃ cf, (exec store hooks inst ctx tIn tOut cpu mem).out = .error (e, cf)) ∧
    (∀ h c2, hooks.onExecError = some h → h c e = .ok c2 →
       ∃ cf, (exec store hooks inst ctx tIn tOut cpu mem).out = .ok cf) := by
  constructor
  · intro hnone
    obtain ⟨c2, hc2⟩ := hfin c
    refine ⟨finalizeTs c2 tOut, ?_⟩
    simp only [exec, hcatch, catchStage, hnone, finallyStage, ctxOf, hc2]
  · intro h c2 hsome hok
    obtain ⟨c3, hc3⟩ := hfin c2
    refine ⟨finalizeTs c3 tOut, ?_⟩
    simp only [exec, hcatch, catchStage, hsome, hok, finallyStage, ctxOf, hc3]

/-- Witness for C2: on the empty store with no hooks, the catch stage is
reached with the HANDLER_NOT_FOUND error and `exec` rethrows exactly it. -/
theorem C2_witness :
    tryStage emptyStore noHooks
        (beginCtx (mkCtx (some "GET") "/missing")
          (incrementInflight (getNextSeq inst0).1) (getNextSeq inst0).2 5 0 0) =
      .error (Err.router (handlerNotFoundErr (some "GET") "/missing"),
              beginCtx (mkCtx (some "GET") "/missing")
                (incrementInflight (getNextSeq inst0).1) (getNextSeq inst0).2 5 0 0) ∧
    (∃ cf, (exec emptyStore noHooks inst0 (mkCtx (some "GET") "/missing") 5 9 0 0).out =
      .error (Err.router (handlerNotFoundErr (some "GET") "/missing"), cf)) :=
  ⟨rfl,
   (C2_error_hook_policy emptyStore noHooks inst0 (mkCtx (some "GET") "/missing") 5 9 0 0
      (Err.router (handlerNotFoundErr (some "GET") "/missing"))
      (beginCtx (mkCtx (some "GET") "/missing")
        (incrementInflight (getNextSeq inst0).1) (getNextSeq inst0).2 5 0 0)
      rfl (fun c1 => ⟨c1, rfl⟩)).1 rfl⟩

/-- Claim C7 (confirmed): on a parameterized hit the captured parameters are
merged into the data bag with lowest priority — the merged bag is
`{ ...matchedParams, ...ctx.req.data }`, so a key present in the
caller-supplied data keeps its caller value and only parameter keys absent
from the data are added — and on an exact hit the data bag is left entirely
unchanged by the core. The last two conjuncts tie the merge to the dispatch:
the handler receives exactly `paramMatchCtx` / `exactMatchCtx`. -/
theorem C7_param_merge_lowest_priority :
    (∀ ctx e, (exactMatchCtx ctx e).reqData = ctx.reqData) ∧
    (∀ ctx e ps, (paramMatchCtx ctx e ps).reqData = ps ++ ctx.reqData) ∧
    (∀ (data ps : AList) (k v : String),
       lookupR data k = some v → lookupR (ps ++ data) k = some v) ∧
    (∀ (data ps : AList) (k : String),
       lookupR data k = none → lookupR (ps ++ data) k = lookupR ps k) ∧
    (∀ store hooks ctx e ps,
       resolve store ctx.reqRoute.op ctx.reqRoute.raw = Resolution.param e ps →
       matchStage store hooks ctx =
         (match e.route.handler (paramMatchCtx ctx e ps) with
          | .ok c2 => runOptHook hooks.onExecAfter c2
          | .error ec => .error ec)) ∧
    (∀ store hooks ctx e,
       resolve store ctx.reqRoute.op ctx.reqRoute.raw = Resolution.exact e →
       matchStage store hooks ctx =
         (match e.route.handler (exactMatchCtx ctx e) with
          | .ok c2 => runOptHook hooks.onExecAfter c2
          | .error ec => .error ec)) := by
  refine ⟨fun ctx e => rfl, fun ctx e ps => rfl, ?_, ?_, ?_, ?_⟩
  · intro data ps k v hv
    rw [lookupR_append, hv]
  · intro data ps k hv
    rw [lookupR_append, hv]
  · intro store hooks ctx e ps h
    unfold matchStage
    rw [h]
  · intro store hooks ctx e h
    unfold matchStage
    rw [h]

/-- Witness for C7: the caller-supplied value of `id` survives a merge with
a matched parameter of the same name. -/
theorem C7_witness :
    lookupR [("id", "caller")] "id" = some "caller" ∧
    lookupR ([("id", "42")] ++ [("id", "caller")]) "id" = some "caller" :=
  ⟨rfl,
   C7_param_merge_lowest_priority.2.2.1 [("id", "caller")] [("id", "42")] "id" "caller" rfl⟩

/-- Claim C8 (corrected). As stated, the claim fails: the HANDLER_NOT_FOUND
error's client-safe data does not carry separate op, raw and pattern fields
(see the counterexample). Amended claim proved here: an invocation resolving
to no route makes the dispatch stage throw a structured router error (the
dedicated `Err.router` class, distinguishable from user-thrown errors) named
HANDLER_NOT_FOUND whose client-safe data carries a single `route` key
holding the combined invocation identity — `"op raw"` when the op is
truthy, else `raw` — and no pattern. -/
theorem C8_not_found_error_amended (store : RouterStore) (hooks : Hooks) (ctx : Ctx)
    (hres : resolve store ctx.reqRoute.op ctx.reqRoute.raw = Resolution.notFound) :
    matchStage store hooks ctx =
      .error (Err.router (handlerNotFoundErr ctx.reqRoute.op ctx.reqRoute.raw), ctx) ∧
    (handlerNotFoundErr ctx.reqRoute.op ctx.reqRoute.raw).name = "HANDLER_NOT_FOUND" ∧
    (handlerNotFoundErr ctx.reqRoute.op ctx.reqRoute.raw).data =
      [("route",
        if strTruthy ctx.reqRoute.op
        then ctx.reqRoute.op.getD "" ++ " " ++ ctx.reqRoute.raw
        else ctx.reqRoute.raw)] ∧
    (∀ u, Err.router (handlerNotFoundErr ctx.reqRoute.op ctx.reqRoute.raw) ≠ Err.user u) ∧
    (∀ t, Err.router (handlerNotFoundErr ctx.reqRoute.op ctx.reqRoute.raw) ≠ Err.other t) := by
  refine ⟨?_, rfl, rfl, ?_, ?_⟩
  · unfold matchStage
    rw [hres]
  · intro u hcon
    exact Err.noConfusion hcon
  · intro t hcon
    exact Err.noConfusion hcon

/-- Counterexample for C8 as stated: the error thrown for an unresolved
`GET /x` carries only the combined `route` key; its data has no `op`, `raw`
or `pattern` key. -/
theorem C8_counterexample :
    thrownErr (exec emptyStore noHooks inst0 (mkCtx (some "GET") "/x") 5 9 0 0).out =
      some (Err.router (handlerNotFoundErr (some "GET") "/x")) ∧
    (handlerNotFoundErr (some "GET") "/x").data = [("route", "GET /x")] ∧
    lookupR (handlerNotFoundErr (some "GET") "/x").data "op" = none ∧
    lookupR (handlerNotFoundErr (some "GET") "/x").data "raw" = none ∧
    lookupR (handlerNotFoundErr (some "GET") "/x").data "pattern" = none :=
  ⟨rfl, rfl, rfl, rfl, rfl⟩

/-- Witness for C8: the empty store resolves nothing and the dispatch stage
throws the amended structured error. -/
theorem C8_witness :
    resolve emptyStore (mkCtx (some "POST") "/y").reqRoute.op
        (mkCtx (some "POST") "/y").reqRoute.raw = Resolution.notFound ∧
    matchStage emptyStore noHooks (mkCtx (some "POST") "/y") =
      .error (Err.router (handlerNotFoundErr (mkCtx (some "POST") "/y").reqRoute.op
                (mkCtx (some "POST") "/y").reqRoute.raw),
              mkCtx (some "POST") "/y") :=
  ⟨rfl, (C8_not_found_error_amended emptyStore noHooks (mkCtx (some "POST") "/y") rfl).1⟩

/-- Claim C10 (confirmed): the matched pattern is written into the context
before the handler pipeline is invoked (first two conjuncts, both tiers),
and a handler throw does not roll it back: the dispatch stage propagates the
handler's thrown error together with exactly the context state the handler
left behind, which the catch stage hands unmodified to the `onExecError`
hook when one is set, or rethrows when none is set; the finally-stage
timestamp write leaves `ctx.req.route` untouched. -/
theorem C10_pattern_survives_throw (store : RouterStore) (hooks : Hooks)
    (ctx : Ctx) (e : RouteEntry) (ps : AList) (err : Err) (c' : Ctx)
    (hres : resolve store ctx.reqRoute.op ctx.reqRoute.raw = Resolution.param e ps)
    (hthrow : e.route.handler (paramMatchCtx ctx e ps) = .error (err, c')) :
    (paramMatchCtx ctx e ps).reqRoute.pattern = e.route.pattern ∧
    (∀ c0 e0, (exactMatchCtx c0 e0).reqRoute.pattern = e0.route.pattern) ∧
    matchStage store hooks ctx = .error (err, c') ∧
    (hooks.onExecError = none →
       catchStage hooks (matchStage store hooks ctx) = .error (err, c')) ∧
    (∀ h, hooks.onExecError = some h →
       catchStage hooks (matchStage store hooks ctx) =
         (match h c' err with
          | .ok c2 => .ok c2
          | .error ec => .error ec)) ∧
    (∀ t, (finalizeTs c' t).reqRoute = c'.reqRoute) := by
  have hm : matchStage store hooks ctx = .error (err, c') := by
    unfold matchStage
    simp only [hres, hthrow]
  refine ⟨rfl, fun c0 e0 => rfl, hm, ?_, ?_, fun t => rfl⟩
  · intro hnone
    rw [hm]
    simp [catchStage, hnone]
  · intro h hsome
    rw [hm]
    simp [catchStage, hsome]

/-- Witness for C10: a `job.:id` route whose handler throws — the pattern
written before the handler ran survives in the thrown state. -/
theorem C10_witness :
    resolve jobStore (mkCtx none "job.42").reqRoute.op
        (mkCtx none "job.42").reqRoute.raw = Resolution.param jobEntry [("id", "42")] ∧
    jobEntry.route.handler (paramMatchCtx (mkCtx none "job.42") jobEntry [("id", "42")]) =
      .error (Err.other 7, paramMatchCtx (mkCtx none "job.42") jobEntry [("id", "42")]) ∧
    (paramMatchCtx (mkCtx none "job.42") jobEntry [("id", "42")]).reqRoute.pattern =
      jobEntry.route.pattern :=
  ⟨rfl, rfl,
   (C10_pattern_survives_throw jobStore noHooks (mkCtx none "job.42") jobEntry [("id", "42")]
      (Err.other 7) (paramMatchCtx (mkCtx none "job.42") jobEntry [("id", "42")]) rfl rfl).1⟩

/-- Claim C6 (confirmed): the registry's `sealed` flag over any operation
sequence starting unsealed equals "some exec has begun" — it transitions
exactly once, on the first exec, and never back (first conjunct; the last
conjunct states that it stays true from any sealed state). Before the first
exec every setter succeeds and installs its hook (conjuncts 2-5); once
sealed, every setter fails with the hooks-already-sealed error (conjuncts
6-9) and leaves the registry, hence the hook slots, unchanged (conjunct 10). -/
theorem C6_sealing :
    (∀ (s0 : HookState) (ops : List RouterOp), s0.sealed = false →
       (runOps s0 ops).sealed = ops.any isExecOp) ∧
    (∀ (s : HookState) (f : HookFn), s.sealed = false →
       setOnExecBefore s f = .ok { s with hooks := { s.hooks with onExecBefore := some f } }) ∧
    (∀ (s : HookState) (f : HookFn), s.sealed = false →
       setOnExecAfter s f = .ok { s with hooks := { s.hooks with onExecAfter := some f } }) ∧
    (∀ (s : HookState) (f : ErrorHookFn), s.sealed = false →
       setOnExecError s f = .ok { s with hooks := { s.hooks with onExecError := some f } }) ∧
    (∀ (s : HookState) (f : HookFn), s.sealed = false →
       setOnExecFinally s f = .ok { s with hooks := { s.hooks with onExecFinally := some f } }) ∧
    (∀ (s : HookState) (f : HookFn), s.sealed = true →
       setOnExecBefore s f = .error hooksSealedError) ∧
    (∀ (s : HookState) (f : HookFn), s.sealed = true →
       setOnExecAfter s f = .error hooksSealedError) ∧
    (∀ (s : HookState) (f : ErrorHookFn), s.sealed = true →
       setOnExecError s f = .error hooksSealedError) ∧
    (∀ (s : HookState) (f : HookFn), s.sealed = true →
       setOnExecFinally s f = .error hooksSealedError) ∧
    (∀ (s : HookState) (op : RouterOp), s.sealed = true → isExecOp op = false →
       stepOp s op = s) ∧
    (∀ (s : HookState) (ops : List RouterOp), s.sealed = true →
       (runOps s ops).sealed = true) := by
  refine ⟨?_, ?_, ?_, ?_, ?_, ?_, ?_, ?_, ?_, ?_, ?_⟩
  · intro s0 ops h
    induction ops generalizing s0 with
    | nil => simpa [runOps] using h
    | cons op rest ih =>
      simp only [runOps, List.any_cons]
      have hs := hookState_step_sealed s0 op h
      cases hop : isExecOp op with
      | true =>
        rw [hop] at hs
        rw [hookState_sealed_stays rest _ hs]
        simp [hop]
      | false =>
        rw [hop] at hs
        rw [ih _ hs]
        simp [hop]
  · intro s f h
    simp [setOnExecBefore, assertNotSealed, h]
  · intro s f h
    simp [setOnExecAfter, assertNotSealed, h]
  · intro s f h
    simp [setOnExecError, assertNotSealed, h]
  · intro s f h
    simp [setOnExecFinally, assertNotSealed, h]
  · intro s f h
    simp [setOnExecBefore, assertNotSealed, h]
  · intro s f h
    simp [setOnExecAfter, assertNotSealed, h]
  · intro s f h
    simp [setOnExecError, assertNotSealed, h]
  · intro s f h
    simp [setOnExecFinally, assertNotSealed, h]
  · intro s op h hexec
    cases op with
    | setBefore f => simp [stepOp, setOnExecBefore, assertNotSealed, h]
    | setAfter f => simp [stepOp, setOnExecAfter, assertNotSealed, h]
    | setError f => simp [stepOp, setOnExecError, assertNotSealed, h]
    | setFinally f => simp [stepOp, setOnExecFinally, assertNotSealed, h]
    | execCall => exact absurd hexec (by simp [isExecOp])
  · intro s ops h
    exact hookState_sealed_stays ops s h

/-- Witness for C6: from the unsealed initial state, one exec call seals. -/
theorem C6_witness :
    hs0.sealed = false ∧
    (runOps hs0 [RouterOp.execCall]).sealed = [RouterOp.execCall].any isExecOp :=
  ⟨rfl, C6_sealing.1 hs0 [RouterOp.execCall] rfl⟩

end CtxRt
